import Mathlib

/-!
Verification of the SIPPhone core: a shallow embedding of the G.711 codec,
the RTP engine, and the SIP user agent (registration, digest authentication,
INVITE handling, TCP framing), with theorems settling the specification
claims about them.

JavaScript numbers used with bitwise operators behave as 32-bit two
complement integers: every bitwise operator first converts its operands
with ToInt32 / ToUint32 and produces an Int32 result.  The primitives
below model that arithmetic exactly over Lean integers.
-/

set_option maxRecDepth 8000

namespace SIPPhone

/-- ToUint32: the operand reduced modulo 2^32 into 0 .. 2^32-1. -/
def toUint32 (x : Int) : Nat := (x % (4294967296 : Int)).toNat

/-- ToInt32: the operand reduced modulo 2^32 into -2^31 .. 2^31-1. -/
def toInt32 (x : Int) : Int :=
  let u : Int := x % (4294967296 : Int)
  if u < 2147483648 then u else u - 4294967296

/-- JavaScript bitwise AND on numbers. -/
def jand (a b : Int) : Int := toInt32 ((toUint32 a &&& toUint32 b : Nat) : Int)

/-- JavaScript bitwise OR on numbers. -/
def jor (a b : Int) : Int := toInt32 ((toUint32 a ||| toUint32 b : Nat) : Int)

/-- JavaScript bitwise XOR on numbers. -/
def jxor (a b : Int) : Int := toInt32 ((toUint32 a ^^^ toUint32 b : Nat) : Int)

/-- JavaScript bitwise NOT on numbers (complement of the 32-bit pattern). -/
def jnot (a : Int) : Int := toInt32 ((toUint32 a ^^^ 4294967295 : Nat) : Int)

/-- JavaScript left shift: shift count is the low five bits of ToUint32. -/
def jshl (a b : Int) : Int := toInt32 (toInt32 a * (2 : Int) ^ (toUint32 b % 32))

/-- JavaScript arithmetic (sign propagating) right shift, i.e. floor division
by a power of two of the Int32 value. -/
def jshr (a b : Int) : Int := (toInt32 a).fdiv ((2 : Int) ^ (toUint32 b % 32))

/-!
### G.711 codec, translated from the audio codec source file

The scalar converters work on JavaScript numbers; buffer level converters
map them over sample lists (the source walks an Int16Array and a Buffer
index by index, which is the same map).
-/

def MULAW_BIAS : Int := 0x84

def MULAW_CLIP : Int := 32635

/-- The 256 entry mu-law exponent lookup table from the source. -/
def mulawEncodeTable : List Nat :=
  [0,0,1,1,2,2,2,2,3,3,3,3,3,3,3,3,
   4,4,4,4,4,4,4,4,4,4,4,4,4,4,4,4,
   5,5,5,5,5,5,5,5,5,5,5,5,5,5,5,5,
   5,5,5,5,5,5,5,5,5,5,5,5,5,5,5,5,
   6,6,6,6,6,6,6,6,6,6,6,6,6,6,6,6,
   6,6,6,6,6,6,6,6,6,6,6,6,6,6,6,6,
   6,6,6,6,6,6,6,6,6,6,6,6,6,6,6,6,
   6,6,6,6,6,6,6,6,6,6,6,6,6,6,6,6,
   7,7,7,7,7,7,7,7,7,7,7,7,7,7,7,7,
   7,7,7,7,7,7,7,7,7,7,7,7,7,7,7,7,
   7,7,7,7,7,7,7,7,7,7,7,7,7,7,7,7,
   7,7,7,7,7,7,7,7,7,7,7,7,7,7,7,7,
   7,7,7,7,7,7,7,7,7,7,7,7,7,7,7,7,
   7,7,7,7,7,7,7,7,7,7,7,7,7,7,7,7,
   7,7,7,7,7,7,7,7,7,7,7,7,7,7,7,7,
   7,7,7,7,7,7,7,7,7,7,7,7,7,7,7,7]

/-- Encode a single 16-bit signed PCM sample to 8-bit mu-law
(function pcmToMulaw of the source). -/
def pcmToMulaw (sample : Int) : Int :=
  let sign := jand (jshr sample 8) 0x80
  let s1 := if sign ≠ 0 then -sample else sample
  let s2 := if s1 > MULAW_CLIP then MULAW_CLIP else s1
  let s3 := s2 + MULAW_BIAS
  let exponent : Int := (mulawEncodeTable.getD (jand (jshr s3 7) 0xFF).toNat 0 : Nat)
  let mantissa := jand (jshr s3 (exponent + 3)) 0x0F
  jand (jnot (jor sign (jor (jshl exponent 4) mantissa))) 0xFF

/-- Decode a single 8-bit mu-law sample to 16-bit signed PCM
(function mulawToPcm of the source). -/
def mulawToPcm (mulawByte : Int) : Int :=
  let b := jand (jnot mulawByte) 0xFF
  let sign := jand b 0x80
  let exponent := jand (jshr b 4) 0x07
  let mantissa := jand b 0x0F
  let s1 := jshl (jshl mantissa 3 + MULAW_BIAS) exponent
  let s2 := s1 - MULAW_BIAS
  if sign ≠ 0 then -s2 else s2

/-- Floor of the binary logarithm, by structural recursion on a fuel
argument so that it evaluates inside the kernel. -/
def log2floorAux : Nat → Nat → Nat
  | 0, _ => 0
  | fuel + 1, n => if n ≥ 2 then log2floorAux fuel (n / 2) + 1 else 0

/-- Floor of the binary logarithm of a positive integer: the model of the
JavaScript expression Math.floor(Math.log2(n)), which is exact for the
integer magnitudes the A-law encoder feeds it. -/
def log2floor (n : Nat) : Nat := log2floorAux n n

/-- Encode a single 16-bit signed PCM sample to 8-bit A-law
(function pcmToAlaw of the source).  The source computes the exponent as
Math.floor(Math.log2(sample)) - 4 for magnitudes of at least 256; on such
integer inputs the floored binary logarithm is exactly log2floor. -/
def pcmToAlaw (sample : Int) : Int :=
  let sign : Int := if sample < 0 then 0x80 else 0
  let s1 := if sample < 0 then -sample else sample
  let s2 := if s1 > 32767 then 32767 else s1
  let companded :=
    if s2 ≥ 256 then
      let e1 : Int := (log2floor s2.toNat : Int) - 4
      let exponent := if e1 > 7 then 7 else e1
      let mantissa := jand (jshr s2 (exponent + 3)) 0x0F
      jor (jshl exponent 4) mantissa
    else jshr s2 4
  jxor (jor companded sign) 0x55

/-- Decode a single 8-bit A-law sample to 16-bit signed PCM
(function alawToPcm of the source). -/
def alawToPcm (alawByte : Int) : Int :=
  let b := jxor alawByte 0x55
  let sign := jand b 0x80
  let exponent := jand (jshr b 4) 0x07
  let mantissa := jand b 0x0F
  let s1 :=
    if exponent = 0 then jshl mantissa 4 + 8
    else jshl (jshl mantissa 3 + 0x84) exponent
  if sign ≠ 0 then -s1 else s1

/-- Buffer level mu-law encoder (function encodeMulaw of the source): one
output byte per 16-bit input sample. -/
def encodeMulaw (pcmBuf : List Int) : List Int := pcmBuf.map pcmToMulaw

/-- Buffer level mu-law decoder (function decodeMulaw of the source). -/
def decodeMulaw (mulawBuf : List Int) : List Int := mulawBuf.map mulawToPcm

/-- Buffer level A-law encoder (function encodeAlaw of the source). -/
def encodeAlaw (pcmBuf : List Int) : List Int := pcmBuf.map pcmToAlaw

/-- Buffer level A-law decoder (function decodeAlaw of the source). -/
def decodeAlaw (alawBuf : List Int) : List Int := alawBuf.map alawToPcm


/-!
### Arithmetic facts about the JavaScript primitives
-/

def RTP_HEADER_SIZE : Nat := 12

def SAMPLES_PER_PACKET : Int := 160

structure RtpState where
  socket : Bool
  remoteAddress : Option String
  remotePort : Option Nat
  ssrc : Int
  sequenceNumber : Int
  timestamp : Int
  payloadType : Int
  active : Bool
  muted : Bool
  micBuffer : List (List Int)
deriving DecidableEq

/-- The RtpEngine constructor: no socket, no remote, inactive, unmuted,
empty queue; ssrc, sequence number and timestamp are the random draws. -/
def mkRtpEngine (ssrc seq ts : Int) : RtpState :=
  { socket := false, remoteAddress := none, remotePort := none,
    ssrc := ssrc, sequenceNumber := seq, timestamp := ts,
    payloadType := 0, active := false, muted := false, micBuffer := [] }

/-- bind(): the UDP socket is created and bound. -/
def RtpState.bindSocket (s : RtpState) : RtpState := { s with socket := true }

/-- start(remoteAddress, remotePort, payloadType). -/
def RtpState.start (s : RtpState) (remoteAddress : String) (remotePort : Nat)
    (payloadType : Int) : RtpState :=
  { s with remoteAddress := some remoteAddress, remotePort := some remotePort,
           payloadType := payloadType, active := true }

/-- stop(): halt the send interval and drop queued microphone audio. -/
def RtpState.stop (s : RtpState) : RtpState :=
  { s with active := false, micBuffer := [] }

/-- close(): stop, then close the socket. -/
def RtpState.close (s : RtpState) : RtpState :=
  { s.stop with socket := false }

/-- feedMicAudio(pcmData): queue a microphone PCM block unless the engine
is inactive or muted. -/
def RtpState.feedMicAudio (s : RtpState) (pcmData : List Int) : RtpState :=
  if s.active = false ∨ s.muted = true then s
  else { s with micBuffer := s.micBuffer ++ [pcmData] }

/-- setMuted(muted): set the flag; muting also flushes the queue. -/
def RtpState.setMuted (s : RtpState) (muted : Bool) : RtpState :=
  { s with muted := muted, micBuffer := if muted then [] else s.micBuffer }

/-- updateRemote(address, port). -/
def RtpState.updateRemote (s : RtpState) (address : String) (port : Nat) :
    RtpState :=
  { s with remoteAddress := some address, remotePort := some port }

/-- The silence padding payload built by the send tick when no microphone
block is available: 160 bytes of 0xD5 for A-law, of 0xFF for mu-law. -/
def silencePayload (payloadType : Int) : List Int :=
  List.replicate 160 (if payloadType = 8 then 0xD5 else 0xFF)

/-- An outbound RTP packet, by header field.  b0 is the version byte. -/
structure RtpPacket where
  b0 : Int
  pt : Int
  seq : Int
  ts : Int
  ssrc : Int
  payload : List Int
deriving DecidableEq

/-- buildRtpPacket(payload).  Node buffer writes check their range:
writeUInt16BE and writeUInt32BE throw ERR_OUT_OF_RANGE outside
0..65535 and 0..4294967295, which is modeled as none. -/
def buildRtpPacket (s : RtpState) (payload : List Int) : Option RtpPacket :=
  if 0 ≤ s.sequenceNumber ∧ s.sequenceNumber ≤ 65535 ∧
     0 ≤ s.timestamp ∧ s.timestamp ≤ 4294967295 ∧
     0 ≤ s.ssrc ∧ s.ssrc ≤ 4294967295 then
    some { b0 := 0x80, pt := jand s.payloadType 0x7F,
           seq := s.sequenceNumber, ts := s.timestamp, ssrc := s.ssrc,
           payload := payload }
  else none

/-- The payload picked by one send tick, with the remaining queue: a
microphone block is consumed when unmuted and queued, else the silence
payload is used and the queue is untouched. -/
def RtpState.tickPayload (s : RtpState) : List Int × List (List Int) :=
  match s.muted, s.micBuffer with
  | false, pcmData :: rest =>
      (if s.payloadType = 8 then encodeAlaw pcmData else encodeMulaw pcmData,
       rest)
  | _, _ => (silencePayload s.payloadType, s.micBuffer)

/-- One send tick (method sendPacket).  Nothing is sent while inactive,
socketless or without a remote address.  The sequence number and timestamp
advance only after a successful send. -/
def RtpState.sendPacket (s : RtpState) : Option RtpPacket × RtpState :=
  if s.active = false ∨ s.socket = false ∨ s.remoteAddress = none then (none, s)
  else
    match buildRtpPacket s s.tickPayload.1 with
    | none => (none, { s with micBuffer := s.tickPayload.2 })
    | some p =>
        (some p,
         { s with micBuffer := s.tickPayload.2,
                  sequenceNumber := jand (s.sequenceNumber + 1) 0xFFFF,
                  timestamp := jand (s.timestamp + SAMPLES_PER_PACKET) 0xFFFFFFFF })

/-- Handling one inbound datagram (method handleIncoming): drop short or
non version 2 packets and empty payloads; learn the remote endpoint from
the packet source when the remote address is unset or 0.0.0.0, logging the
learned endpoint; decode PT 0 as mu-law and PT 8 as A-law, drop others.
Returns the new state, emitted log lines, and the decoded audio if any. -/
def RtpState.handleIncoming (s : RtpState) (msg : List Int) (addr : String)
    (port : Nat) : RtpState × List String × Option (List Int) :=
  if msg.length < RTP_HEADER_SIZE then (s, [], none)
  else if jand (jshr (msg.getD 0 0) 6) 0x03 ≠ 2 then (s, [], none)
  else
    let pt := jand (msg.getD 1 0) 0x7F
    let payload := msg.drop RTP_HEADER_SIZE
    if payload.length = 0 then (s, [], none)
    else
      let learned :=
        if s.remoteAddress = none ∨ s.remoteAddress = some "0.0.0.0" then
          ({ s with remoteAddress := some addr, remotePort := some port },
           ["RTP symmetric: learned remote " ++ addr ++ ":" ++ toString port])
        else (s, ([] : List String))
      if pt = 0 then (learned.1, learned.2, some (decodeMulaw payload))
      else if pt = 8 then (learned.1, learned.2, some (decodeAlaw payload))
      else (learned.1, learned.2, none)

/-- An engine started toward the peer advertised endpoint 203.0.113.5:6000. -/
def c4Session : RtpState := ((mkRtpEngine 7 8 9).bindSocket).start "203.0.113.5" 6000 0

/-- A valid inbound RTP packet: version 2, PT 0, one payload byte. -/
def c4Packet : List Int := [0x80, 0, 0, 0, 0, 0, 0, 0, 0, 0, 0, 0, 0xFF]

/-- The operations a session can perform between packets. -/
inductive RtpOp where
  | startOp (addr : String) (port : Nat) (pt : Int)
  | stopOp
  | closeOp
  | feedOp (pcmData : List Int)
  | muteOp (muted : Bool)
  | updateOp (addr : String) (port : Nat)
  | sendOp
deriving DecidableEq

/-- Apply one operation, returning the new state and the packets sent. -/
def RtpState.applyOp (s : RtpState) : RtpOp → RtpState × List RtpPacket
  | .startOp a p t => (s.start a p t, [])
  | .stopOp => (s.stop, [])
  | .closeOp => (s.close, [])
  | .feedOp pcm => (s.feedMicAudio pcm, [])
  | .muteOp m => (s.setMuted m, [])
  | .updateOp a p => (s.updateRemote a p, [])
  | .sendOp =>
      match s.sendPacket with
      | (some p, s1) => (s1, [p])
      | (none, s1) => (s1, [])

/-- Run a list of operations, collecting every packet sent. -/
def RtpState.run (s : RtpState) : List RtpOp → RtpState × List RtpPacket
  | [] => (s, [])
  | op :: ops =>
      (((s.applyOp op).1.run ops).1,
       (s.applyOp op).2 ++ ((s.applyOp op).1.run ops).2)

/-- The per-step relation of claim C6: between consecutive packets the
sequence number advances by one modulo 2^16 and the timestamp by 160
modulo 2^32. -/
def rtpStep (p q : RtpPacket) : Prop :=
  q.seq = (p.seq + 1) % 65536 ∧ q.ts = (p.ts + 160) % 4294967296

/-- computeDigestResponse(auth, method, uri, username, password), where
auth carries the realm and nonce of the challenge. -/
def computeDigestResponse (md5 : String → String) (realm nonce : String)
    (method uri username password : String) : String :=
  let ha1 := md5 (username ++ ":" ++ realm ++ ":" ++ password)
  let ha2 := md5 (method ++ ":" ++ uri)
  md5 (ha1 ++ ":" ++ nonce ++ ":" ++ ha2)

/-- buildAuthorizationHeader(auth, method, uri, username, password). -/
def buildAuthorizationHeader (md5 : String → String) (realm nonce : String)
    (method uri username password : String) : String :=
  let response := computeDigestResponse md5 realm nonce method uri username password
  "Digest username=\"" ++ username ++ "\", realm=\"" ++ realm ++
    "\", nonce=\"" ++ nonce ++ "\", uri=\"" ++ uri ++ "\", response=\"" ++
    response ++ "\", algorithm=MD5"

/-- The digest formula exactly as the specification words it:
MD5(HA1 colon nonce colon HA2) with HA1 = MD5(user colon realm colon
password) and HA2 = MD5(method colon request uri). -/
def specDigestFormula (md5 : String → String) (username realm password nonce
    method uri : String) : String :=
  md5 (md5 (username ++ ":" ++ realm ++ ":" ++ password) ++ ":" ++ nonce ++
    ":" ++ md5 (method ++ ":" ++ uri))

inductive CallPhase where
  | calling
  | ringing
  | ringingIn
  | active
deriving DecidableEq

structure CallRec where
  callId : String
  fromTag : Option String
  toTag : Option String
  localTag : Option String
  target : String
  targetUri : String
  rtpEngine : Option RtpState
  rtpPort : Nat
  state : CallPhase
  cseq : Nat
  branch : String
  localSdp : String
  remoteSdp : String
  incomingVia : String
  incomingFrom : String
  incomingTo : String
  incomingCSeq : Nat
  sourceAddress : String
  sourcePort : Nat
deriving DecidableEq

/-- The header fields of an ACK request (method and CSeq method ACK). -/
structure AckMsg where
  uri : String
  branch : String
  fromTag : Option String
  toTag : String
  callId : String
  cseqNum : Nat
deriving DecidableEq

/-- The header fields of an INVITE request. -/
structure InviteMsg where
  uri : String
  branch : String
  fromTag : Option String
  callId : String
  cseqNum : Nat
  authorization : Option String
  body : String
deriving DecidableEq

/-- buildAck(toTag): the source generates a fresh Via branch for the ACK
(generateBranch() on its first line), keeps the call's Call-ID, From tag
and CSeq number, and places the given To tag. -/
def buildAck (c : CallRec) (toTag : String) (freshBranch : String) : AckMsg :=
  { uri := c.targetUri, branch := freshBranch, fromTag := c.fromTag,
    toTag := toTag, callId := c.callId, cseqNum := c.cseq }

/-- buildInviteWithAuth(authHeader): increments the call CSeq, stores a
fresh branch on the call, and rebuilds the INVITE with an Authorization
header for the challenge realm and nonce. -/
def buildInviteWithAuth (md5 : String → String) (realm nonce : String)
    (username password : String) (c : CallRec) (freshBranch : String) :
    CallRec × InviteMsg :=
  let c1 := { c with cseq := c.cseq + 1, branch := freshBranch }
  (c1,
   { uri := c1.targetUri, branch := c1.branch, fromTag := c1.fromTag,
     callId := c1.callId, cseqNum := c1.cseq,
     authorization := some (buildAuthorizationHeader md5 realm nonce
       "INVITE" c1.targetUri username password),
     body := c1.localSdp })

/-- The 401/407 branch of handleInviteResponse: record the To tag from the
response, send an ACK for the failure response, then resend the INVITE
with credentials.  freshB1 and freshB2 are the two generateBranch draws. -/
def handleInvite401 (md5 : String → String) (realm nonce : String)
    (username password : String) (c : CallRec) (respToTag : Option String)
    (freshB1 freshB2 : String) : CallRec × AckMsg × InviteMsg :=
  let c1 := match respToTag with
    | some t => { c with toTag := some t }
    | none => c
  let ack := buildAck c1 (c1.toTag.getD "") freshB1
  let r := buildInviteWithAuth md5 realm nonce username password c1 freshB2
  (r.1, ack, r.2)

/-- A concrete outbound call awaiting its INVITE response. -/
def c3Call : CallRec :=
  { callId := "cid3", fromTag := some "ft3", toTag := none, localTag := none,
    target := "100", targetUri := "sip:100@pbx", rtpEngine := none,
    rtpPort := 0, state := CallPhase.calling, cseq := 1,
    branch := "z9hG4bKorig", localSdp := "v=0", remoteSdp := "",
    incomingVia := "", incomingFrom := "", incomingTo := "",
    incomingCSeq := 0, sourceAddress := "", sourcePort := 0 }

/-- The 401 handling evaluated at the concrete call above. -/
def c3Result : CallRec × AckMsg × InviteMsg :=
  handleInvite401 (fun s => s) "realm" "nonce" "user" "pw" c3Call
    (some "totag") "z9hG4bKf1" "z9hG4bKf2"

structure RegState where
  registerCSeq : Nat
  localTag : String
  registerCallId : String
  registered : Bool
  registerRetryCount : Nat
  maxRegisterRetries : Nat
  socketUp : Bool
deriving DecidableEq

/-- The headers of a REGISTER request that the claims concern: the CSeq
number, the Call-ID, the From tag, the Expires value, and whether an
Authorization header is present.  They are interpolated verbatim from the
state by the source templates buildRegister and buildRegisterWithAuth. -/
structure RegisterMsg where
  cseq : Nat
  callId : String
  fromTag : String
  expires : Nat
  hasAuthorization : Bool
deriving DecidableEq

/-- buildRegister(expires): headers from the current state, no
Authorization. -/
def buildRegister (s : RegState) (expires : Nat) : RegisterMsg :=
  { cseq := s.registerCSeq, callId := s.registerCallId,
    fromTag := s.localTag, expires := expires, hasAuthorization := false }

/-- buildRegisterWithAuth(authHeader): increments the CSeq itself, then
builds the authenticated REGISTER. -/
def buildRegisterWithAuth (s : RegState) (expires : Nat) :
    RegState × RegisterMsg :=
  let s1 := { s with registerCSeq := s.registerCSeq + 1 }
  (s1,
   { cseq := s1.registerCSeq, callId := s1.registerCallId,
     fromTag := s1.localTag, expires := expires, hasAuthorization := true })

/-- The events of one registration that cause a REGISTER to be sent or the
registration state to change. -/
inductive RegOp where
  | registerOp
  | retryTimeout
  | response401 (hasAuthHeader : Bool)
  | response200
  | responseOther (code : Nat)
  | refreshTimeout
  | unregisterOp
deriving DecidableEq

/-- One step of the registration lifecycle, returning the REGISTER
requests sent.  registerOp is the register() call (CSeq incremented, retry
counter reset, plain REGISTER); retryTimeout is the retry timer body (a
no-op once registered or out of retries, else CSeq incremented and a plain
REGISTER resent); response401 resends with credentials through
buildRegisterWithAuth when the challenge carries a header; response200
marks registered; refreshTimeout is the re-register interval body;
unregisterOp sends the Expires 0 REGISTER while a socket exists. -/
def RegState.applyRegOp (s : RegState) : RegOp → RegState × List RegisterMsg
  | .registerOp =>
      let s1 := { s with registerCSeq := s.registerCSeq + 1,
                         registerRetryCount := 0, socketUp := true }
      (s1, [buildRegister s1 300])
  | .retryTimeout =>
      if s.registered then (s, [])
      else
        let s1 := { s with registerRetryCount := s.registerRetryCount + 1 }
        if s1.registerRetryCount > s.maxRegisterRetries then (s1, [])
        else
          let s2 := { s1 with registerCSeq := s1.registerCSeq + 1 }
          (s2, [buildRegister s2 300])
  | .response401 hasAuthHeader =>
      if hasAuthHeader then
        let r := buildRegisterWithAuth s 300
        (r.1, [r.2])
      else (s, [])
  | .response200 =>
      ({ s with registered := true, registerRetryCount := 0 }, [])
  | .responseOther _ => (s, [])
  | .refreshTimeout =>
      let s1 := { s with registerCSeq := s.registerCSeq + 1 }
      (s1, [buildRegister s1 300])
  | .unregisterOp =>
      if s.socketUp then
        let s1 := { s with registerCSeq := s.registerCSeq + 1 }
        (s1, [buildRegister s1 0])
      else (s, [])

/-- Run a sequence of registration events, collecting sent REGISTERs. -/
def RegState.runRegOps (s : RegState) : List RegOp → RegState × List RegisterMsg
  | [] => (s, [])
  | op :: ops =>
      (((s.applyRegOp op).1.runRegOps ops).1,
       (s.applyRegOp op).2 ++ ((s.applyRegOp op).1.runRegOps ops).2)

/-- The caller-id extraction of _handleIncomingInvite: the first match of
the pattern <sip: followed by one or more characters other than @ and >,
scanning left to right and resuming one character later when the
characters after <sip: cannot start the capture. -/
def callerCapture : List Char → Option (List Char)
  | [] => none
  | c :: rest =>
      if (c :: rest).take 5 = ['<', 's', 'i', 'p', ':'] then
        let cap := ((c :: rest).drop 5).takeWhile (fun ch => ch != '@' && ch != '>')
        if cap.isEmpty then callerCapture rest else some cap
      else callerCapture rest

/-- fromMatch ? fromMatch[1] : the string Unknown. -/
def callerIdOf (fromHeader : String) : String :=
  match callerCapture fromHeader.data with
  | some cap => String.mk cap
  | none => "Unknown"

/-- parseInt on a header value that starts with its digits: the numeric
value of the leading digit run. -/
def parseIntDigits (s : String) : Nat :=
  (s.data.takeWhile Char.isDigit).foldl (fun a c => a * 10 + (c.toNat - 48)) 0

/-- The parsed header fields of an incoming request that
_handleIncomingInvite reads: msg.headers and msg.body as parseSipMessage
delivers them. -/
structure SipRequest where
  via : String
  fromHeader : String
  toHeader : String
  callId : String
  cseqHeader : String
  body : String
deriving DecidableEq

/-- The rinfo argument: source address and port of the datagram. -/
structure Rinfo where
  address : String
  port : Nat
deriving DecidableEq

/-- The SipUA fields _handleIncomingInvite touches: the current call and
the values interpolated into the 180 Ringing Contact header. -/
structure UAState where
  call : Option CallRec
  extension : String
  localIp : String
  localPort : Nat
  transportStr : String
deriving DecidableEq

/-- The observable actions of the handler: _send of a response text,
emit log, and emit callState. -/
inductive UAEvent where
  | sendMsg (text : String)
  | logEvt (category text : String)
  | callStateEvt (st caller : String)
deriving DecidableEq

/-- The non-busy tail of _handleIncomingInvite: send 100 Trying, send 180
Ringing with a fresh local tag, store the new incoming call record, emit
the log and callState events. -/
def acceptIncomingInvite (ua : UAState) (msg : SipRequest) (ri : Rinfo)
    (localTag : String) : UAState × List UAEvent :=
  let fromHeader := msg.fromHeader
  let callerId := callerIdOf fromHeader
  let callId := msg.callId
  let cseq := msg.cseqHeader
  let trying := "SIP/2.0 100 Trying\r\n" ++ "Via: " ++ msg.via ++ "\r\n" ++
    "From: " ++ fromHeader ++ "\r\n" ++ "To: " ++ msg.toHeader ++ "\r\n" ++
    "Call-ID: " ++ callId ++ "\r\n" ++ "CSeq: " ++ cseq ++ "\r\n" ++
    "Content-Length: 0\r\n\r\n"
  let ringing := "SIP/2.0 180 Ringing\r\n" ++ "Via: " ++ msg.via ++ "\r\n" ++
    "From: " ++ fromHeader ++ "\r\n" ++
    "To: " ++ msg.toHeader ++ ";tag=" ++ localTag ++ "\r\n" ++
    "Call-ID: " ++ callId ++ "\r\n" ++ "CSeq: " ++ cseq ++ "\r\n" ++
    "Contact: <sip:" ++ ua.extension ++ "@" ++ ua.localIp ++ ":" ++
    toString ua.localPort ++ ";transport=" ++ ua.transportStr ++ ">\r\n" ++
    "Content-Length: 0\r\n\r\n"
  let newCall : CallRec := {
    callId := callId, fromTag := none, toTag := none,
    localTag := some localTag, target := callerId, targetUri := "",
    rtpEngine := none, rtpPort := 0, state := CallPhase.ringingIn,
    cseq := 1, branch := "", localSdp := "", remoteSdp := msg.body,
    incomingVia := msg.via, incomingFrom := fromHeader,
    incomingTo := msg.toHeader, incomingCSeq := parseIntDigits cseq,
    sourceAddress := ri.address, sourcePort := ri.port }
  ({ ua with call := some newCall },
   [UAEvent.sendMsg trying, UAEvent.sendMsg ringing,
    UAEvent.logEvt "call" ("Incoming call from " ++ callerId),
    UAEvent.callStateEvt "ringing-in" callerId])

/-- _handleIncomingInvite(msg, rinfo): if a call exists and is active,
log the rejection and send 486 Busy Here echoing the Via, From, To (with
a generated tag appended), Call-ID and CSeq of the request, leaving the
state untouched; otherwise run the accepting tail.  The generated tag is
passed in as freshTag. -/
def handleIncomingInvite (ua : UAState) (msg : SipRequest) (ri : Rinfo)
    (freshTag : String) : UAState × List UAEvent :=
  match ua.call with
  | some c =>
      if c.state = CallPhase.active then
        let callerId := callerIdOf msg.fromHeader
        let busy := "SIP/2.0 486 Busy Here\r\n" ++ "Via: " ++ msg.via ++ "\r\n" ++
          "From: " ++ msg.fromHeader ++ "\r\n" ++
          "To: " ++ msg.toHeader ++ ";tag=" ++ freshTag ++ "\r\n" ++
          "Call-ID: " ++ msg.callId ++ "\r\n" ++
          "CSeq: " ++ msg.cseqHeader ++ "\r\n" ++
          "Content-Length: 0\r\n\r\n"
        (ua, [UAEvent.logEvt "call"
                ("Rejecting incoming call from " ++ callerId ++ " \u2014 busy"),
              UAEvent.sendMsg busy])
      else acceptIncomingInvite ua msg ri freshTag
  | none => acceptIncomingInvite ua msg ri freshTag

/-- A concrete active call for exercising the busy branch. -/
def c9call : CallRec :=
  { callId := "id1", fromTag := some "ft", toTag := some "tt",
    localTag := some "lt", target := "200", targetUri := "sip:200@pbx",
    rtpEngine := none, rtpPort := 4000, state := CallPhase.active,
    cseq := 2, branch := "z9hG4bKabc", localSdp := "v=0", remoteSdp := "v=0",
    incomingVia := "", incomingFrom := "", incomingTo := "",
    incomingCSeq := 0, sourceAddress := "", sourcePort := 0 }

/-- A concrete UA state holding that active call. -/
def c9ua : UAState :=
  { call := some c9call, extension := "101", localIp := "192.0.2.1",
    localPort := 5060, transportStr := "udp" }

/-- A concrete second INVITE and its source. -/
def c9msg : SipRequest :=
  { via := "SIP/2.0/UDP 198.51.100.3:5060;branch=z9hG4bKxyz",
    fromHeader := "<sip:300@pbx>;tag=remote1", toHeader := "<sip:101@pbx>",
    callId := "id2", cseqHeader := "7 INVITE", body := "v=0" }

def c9ri : Rinfo := { address := "198.51.100.3", port := 5060 }

/-- The header terminator the framer searches for. -/
def crlfcrlf : List Char := ['\r', '\n', '\r', '\n']

/-- str.indexOf(pat) over the buffer modeled as a character list:
the first index whose suffix starts with pat, scanning left to right. -/
def findSubAux (pat : List Char) : List Char → Nat → Option Nat
  | xs, i =>
    if pat.isPrefixOf xs then some i
    else
      match xs with
      | [] => none
      | _ :: rest => findSubAux pat rest (i + 1)

def findSub (xs pat : List Char) : Option Nat := findSubAux pat xs 0

/-- The characters the regex class \s matches in ASCII. -/
def isJsSpace (c : Char) : Bool :=
  c = ' ' || c = '\t' || c = '\r' || c = '\n' || c = '\x0b' || c = '\x0c'

/-- The numeric value of a digit run, as parseInt reads the capture. -/
def digitsVal (ds : List Char) : Nat :=
  ds.foldl (fun a c => a * 10 + (c.toNat - 48)) 0

/-- The literal part of the Content-Length pattern, lowered. -/
def clToken : List Char :=
  ['c', 'o', 'n', 't', 'e', 'n', 't', '-', 'l', 'e', 'n', 'g', 't', 'h', ':']

/-- The first match of the case-insensitive pattern Content-Length:
followed by optional whitespace and one or more digits: at each position,
if the next fifteen characters spell the token (in any case), skip the
whitespace after them and read the digit run; when no digit follows, the
scan resumes one character later, as the regex engine does. -/
def clScan : List Char → Option Nat
  | [] => none
  | c :: rest =>
      if ((c :: rest).take 15).map Char.toLower = clToken then
        let digits :=
          (((c :: rest).drop 15).dropWhile isJsSpace).takeWhile Char.isDigit
        if digits.isEmpty then clScan rest else some (digitsVal digits)
      else clScan rest

/-- clMatch ? parseInt(clMatch[1]) : 0. -/
def contentLengthOf (header : List Char) : Nat := (clScan header).getD 0

/-- The framer loop of _handleTcpData: while the buffer is nonempty, look
for the header terminator; stop when it is absent; else compute the total
message length from the Content-Length of the header section, clamp it to
the buffer (substring past the end keeps the string whole, and
Buffer.byteLength of that is the buffer length), deliver that slice and
continue on the remainder.  Fuel bounds the number of iterations; one more
than the buffer length always suffices because a delivered slice is never
empty. -/
def processTcpBufferAux : Nat → List Char → List (List Char) × List Char
  | 0, buf => ([], buf)
  | _ + 1, [] => ([], [])
  | fuel + 1, b :: bs =>
      let buf := b :: bs
      match findSub buf crlfcrlf with
      | none => ([], buf)
      | some headerEnd =>
          let contentLength := contentLengthOf (buf.take headerEnd)
          let total := headerEnd + 4 + contentLength
          let totalBytes := min total buf.length
          if buf.length < totalBytes then ([], buf)
          else
            let out := processTcpBufferAux fuel (buf.drop totalBytes)
            (buf.take totalBytes :: out.1, out.2)

/-- _handleTcpData(data): append the chunk to the accumulated buffer and
run the framing loop, returning the delivered messages and the residual
buffer. -/
def handleTcpData (tcpBuf data : List Char) : List (List Char) × List Char :=
  let buf := tcpBuf ++ data
  processTcpBufferAux (buf.length + 1) buf

/-- A well-formed framed message: a header section that the terminator
search ends exactly at its length, the terminator, and a body of exactly
the Content-Length announced by the header section. -/
def msgWellFormed (m : List Char) : Prop :=
  ∃ hdr body, m = hdr ++ crlfcrlf ++ body ∧
    findSub m crlfcrlf = some hdr.length ∧
    contentLengthOf hdr = body.length

/-- A concrete first framed message: one header line announcing a
two-byte body. -/
def c7msg1 : List Char := ("R x\r\nContent-Length: 2\r\n\r\nab").data

/-- A concrete second framed message with no Content-Length header and an
empty body. -/
def c7msg2 : List Char := ("OK z\r\n\r\n").data

theorem toUint32_eq_toNat {x : Int} (h1 : 0 ≤ x) (h2 : x < 4294967296) :
    toUint32 x = x.toNat := by
  unfold toUint32
  omega

theorem toInt32_eq_self {x : Int} (h1 : -2147483648 ≤ x) (h2 : x < 2147483648) :
    toInt32 x = x := by
  show (if x % 4294967296 < 2147483648 then x % 4294967296
        else x % 4294967296 - 4294967296) = x
  split <;> omega

theorem nat_and_mask (x k : Nat) : x &&& (2 ^ k - 1) = x % 2 ^ k := by
  refine Nat.eq_of_testBit_eq fun i => ?_
  rw [Nat.testBit_land, Nat.testBit_two_pow_sub_one, Nat.testBit_mod_two_pow]
  exact Bool.and_comm _ _

theorem jshr_eq_ediv (x : Int) (hx1 : -2147483648 ≤ x) (hx2 : x < 2147483648)
    (n : Int) (hn1 : 0 ≤ n) (hn2 : n < 32) :
    jshr x n = x / (2 : Int) ^ n.toNat := by
  unfold jshr
  rw [toInt32_eq_self hx1 hx2, toUint32_eq_toNat hn1 (by omega),
    Nat.mod_eq_of_lt (by omega), Int.fdiv_eq_ediv _ (by positivity)]

theorem jand255 (a : Int) : jand a 255 = ((toUint32 a % 256 : Nat) : Int) := by
  unfold jand
  have h1 : toUint32 (255 : Int) = 255 := by decide
  have h2 : toUint32 a &&& 255 = toUint32 a % 256 := by
    have h := nat_and_mask (toUint32 a) 8
    norm_num at h
    exact h
  have h3 := Nat.mod_lt (toUint32 a) (y := 256) (by norm_num)
  rw [h1, h2]
  exact toInt32_eq_self (by omega) (by omega)

theorem jand255_of_range (a : Int) (h1 : 0 ≤ a) (h2 : a < 4294967296) :
    jand a 255 = a % 256 := by
  rw [jand255, toUint32_eq_toNat h1 h2]
  omega

theorem jand255_range (a : Int) : 0 ≤ jand a 255 ∧ jand a 255 < 256 := by
  rw [jand255]
  have := Nat.mod_lt (toUint32 a) (y := 256) (by norm_num)
  omega

theorem jand15 (a : Int) : jand a 15 = ((toUint32 a % 16 : Nat) : Int) := by
  unfold jand
  have h1 : toUint32 (15 : Int) = 15 := by decide
  have h2 : toUint32 a &&& 15 = toUint32 a % 16 := by
    have h := nat_and_mask (toUint32 a) 4
    norm_num at h
    exact h
  have h3 := Nat.mod_lt (toUint32 a) (y := 16) (by norm_num)
  rw [h1, h2]
  exact toInt32_eq_self (by omega) (by omega)

theorem jand15_of_range (a : Int) (h1 : 0 ≤ a) (h2 : a < 4294967296) :
    jand a 15 = a % 16 := by
  rw [jand15, toUint32_eq_toNat h1 h2]
  omega

theorem jand15_range (a : Int) : 0 ≤ jand a 15 ∧ jand a 15 < 16 := by
  rw [jand15]
  have := Nat.mod_lt (toUint32 a) (y := 16) (by norm_num)
  omega

theorem and128_enum : ∀ r ∈ Finset.range 256,
    r &&& 128 = if r < 128 then 0 else 128 := by decide

theorem toUint32_mod_256 (t : Int) : ((toUint32 t % 256 : Nat) : Int) = t % 256 := by
  unfold toUint32
  have hdvd : ((256 : Int) ∣ 4294967296) := by norm_num
  have h := Int.emod_emod_of_dvd t hdvd
  omega

theorem jand128 (t : Int) :
    jand t 128 = if t % 256 < 128 then 0 else 128 := by
  unfold jand
  have hu : toUint32 (128 : Int) = 128 := by decide
  have hassoc : toUint32 t &&& 128 = (toUint32 t &&& 255) &&& 128 := by
    rw [Nat.land_assoc]
    rw [show (255 &&& 128 : Nat) = 128 from by decide]
  have h255 : toUint32 t &&& 255 = toUint32 t % 256 := by
    have h := nat_and_mask (toUint32 t) 8
    norm_num at h
    exact h
  have hmem : toUint32 t % 256 ∈ Finset.range 256 :=
    Finset.mem_range.mpr (Nat.mod_lt _ (by norm_num))
  have henum := and128_enum _ hmem
  have hrel := toUint32_mod_256 t
  have hmlt := Nat.mod_lt (toUint32 t) (y := 256) (by norm_num)
  rw [hu, hassoc, h255, henum]
  by_cases hc : t % 256 < 128
  · rw [if_pos (by omega), if_pos hc]
    decide
  · rw [if_neg (by omega), if_neg hc]
    decide

/-- Entries of the mu-law exponent table are below 8, for any index. -/
theorem mulawEncodeTable_getD_lt (k : Nat) : mulawEncodeTable.getD k 0 < 8 := by
  by_cases hk : k < 256
  · have : ∀ k ∈ Finset.range 256, mulawEncodeTable.getD k 0 < 8 := by decide
    exact this k (Finset.mem_range.mpr hk)
  · rw [List.getD_eq_default]
    · norm_num
    · have : mulawEncodeTable.length = 256 := by decide
      omega

theorem mulawEncodeTable_getD_pos :
    ∀ k ∈ Finset.range 256, 2 ≤ k → 1 ≤ mulawEncodeTable.getD k 0 := by decide

theorem mulawEncodeTable_getD_one : mulawEncodeTable.getD 1 0 = 0 := by decide

/-- The output byte of the mu-law encoder with positive sign is at least
128, hence never the negative zero codeword 0x7F: checked for each of the
128 possible exponent and mantissa combinations. -/
theorem mulaw_byte_pos : ∀ e ∈ Finset.range 8, ∀ m ∈ Finset.range 16,
    jand (jnot (jor 0 (jor (jshl (e : Int) 4) (m : Int)))) 255 ≠ 127 := by decide

/-- The output byte of the mu-law encoder with negative sign differs from
0x7F as soon as the exponent or the mantissa is nonzero. -/
theorem mulaw_byte_neg : ∀ e ∈ Finset.range 8, ∀ m ∈ Finset.range 16,
    e ≠ 0 ∨ m ≠ 0 →
    jand (jnot (jor 128 (jor (jshl (e : Int) 4) (m : Int)))) 255 ≠ 127 := by decide

/-- The sign step of the mu-law encoder: bit 7 of the arithmetic right
shift by eight distinguishes negative from nonnegative 16-bit samples. -/
theorem mulaw_sign_eq (x : Int) (hlo : -32768 ≤ x) (hhi : x ≤ 32767) :
    jand (jshr x 8) 0x80 = if x < 0 then 128 else 0 := by
  have hshr : jshr x 8 = x / 256 := by
    rw [jshr_eq_ediv x (by omega) (by omega) 8 (by norm_num) (by norm_num)]
    norm_num [show Int.toNat 8 = 8 from rfl]
  rw [hshr, jand128]
  have hq1 : -128 ≤ x / 256 := by omega
  have hq2 : x / 256 ≤ 127 := by omega
  split_ifs <;> omega

/-- Within the 16-bit sample range, the only inputs the mu-law encoder
maps to the negative zero codeword 0x7F are -1, -2 and -3. -/
theorem pcmToMulaw_ne_127 (x : Int) (hlo : -32768 ≤ x) (hhi : x ≤ 32767)
    (hn1 : x ≠ -1) (hn2 : x ≠ -2) (hn3 : x ≠ -3) : pcmToMulaw x ≠ 127 := by
  simp only [pcmToMulaw, MULAW_CLIP, MULAW_BIAS]
  rw [mulaw_sign_eq x hlo hhi]
  by_cases hx : x < 0
  · rw [if_pos hx, if_pos (show (128 : Int) ≠ 0 by norm_num)]
    set s3 : Int := (if -x > 32635 then 32635 else -x) + 0x84 with hs3def
    have hs3 : 136 ≤ s3 ∧ s3 ≤ 32767 := by
      rw [hs3def]
      split <;> omega
    have hidx : jshr s3 7 = s3 / 128 := by
      rw [jshr_eq_ediv s3 (by omega) (by omega) 7 (by norm_num) (by norm_num)]
      norm_num [show Int.toNat 7 = 7 from rfl]
    have hq : 1 ≤ s3 / 128 ∧ s3 / 128 ≤ 255 := by omega
    have hjidx : jand (s3 / 128) 0xFF = s3 / 128 := by
      rw [jand255_of_range _ (by omega) (by omega)]
      omega
    rw [hidx, hjidx]
    by_cases hsmall : s3 ≤ 255
    · have hq1 : s3 / 128 = 1 := by omega
      rw [hq1]
      rw [show ((1 : Int)).toNat = 1 by norm_num, mulawEncodeTable_getD_one]
      have hmant : jshr s3 (((0 : Nat) : Int) + 3) = s3 / 8 := by
        rw [jshr_eq_ediv s3 (by omega) (by omega) _ (by norm_num) (by norm_num)]
        norm_num [show Int.toNat 3 = 3 from rfl]
      rw [hmant]
      have hdiv : 17 ≤ s3 / 8 ∧ s3 / 8 ≤ 31 := by omega
      have hm : jand (s3 / 8) 0x0F = s3 / 8 % 16 := by
        rw [jand15_of_range _ (by omega) (by omega)]
      rw [hm]
      have hm0 : (0 : Int) ≤ s3 / 8 % 16 := by omega
      rw [← Int.toNat_of_nonneg hm0]
      refine mulaw_byte_neg 0 (by norm_num) _ (Finset.mem_range.mpr (by omega)) ?_
      refine Or.inr ?_
      omega
    · set k : Nat := (s3 / 128).toNat with hkdef
      have hk : 2 ≤ k ∧ k ≤ 255 := by omega
      set e : Nat := mulawEncodeTable.getD k 0 with hedef
      have he : e < 8 := mulawEncodeTable_getD_lt k
      have he1 : 1 ≤ e :=
        mulawEncodeTable_getD_pos k (Finset.mem_range.mpr (by omega)) (by omega)
      have hmr := jand15_range (jshr s3 ((e : Int) + 3))
      rw [← Int.toNat_of_nonneg hmr.1]
      refine mulaw_byte_neg e (Finset.mem_range.mpr he) _
        (Finset.mem_range.mpr (by omega)) (Or.inl (by omega))
  · rw [if_neg hx, if_neg (show ¬ ((0 : Int) ≠ 0) by norm_num)]
    set s3 : Int := (if x > 32635 then 32635 else x) + 0x84 with hs3def
    have hs3 : 132 ≤ s3 ∧ s3 ≤ 32767 := by
      rw [hs3def]
      split <;> omega
    have hidx : jshr s3 7 = s3 / 128 := by
      rw [jshr_eq_ediv s3 (by omega) (by omega) 7 (by norm_num) (by norm_num)]
      norm_num [show Int.toNat 7 = 7 from rfl]
    have hq : 1 ≤ s3 / 128 ∧ s3 / 128 ≤ 255 := by omega
    have hjidx : jand (s3 / 128) 0xFF = s3 / 128 := by
      rw [jand255_of_range _ (by omega) (by omega)]
      omega
    rw [hidx, hjidx]
    set k : Nat := (s3 / 128).toNat with hkdef
    set e : Nat := mulawEncodeTable.getD k 0 with hedef
    have he : e < 8 := mulawEncodeTable_getD_lt k
    have hmr := jand15_range (jshr s3 ((e : Int) + 3))
    rw [← Int.toNat_of_nonneg hmr.1]
    exact mulaw_byte_pos e (Finset.mem_range.mpr he) _
      (Finset.mem_range.mpr (by omega))

/-- The mu-law encoder ends in a mask with 0xFF, so its output is a byte. -/
theorem pcmToMulaw_range (x : Int) : 0 ≤ pcmToMulaw x ∧ pcmToMulaw x < 256 := by
  simp only [pcmToMulaw]
  exact jand255_range _

/-- Decoding then re-encoding is the identity on every mu-law byte except
the negative zero codeword 0x7F, checked for all 256 bytes. -/
theorem mulaw_byte_idem : ∀ n ∈ Finset.range 256,
    n = 127 ∨ pcmToMulaw (mulawToPcm (n : Int)) = (n : Int) := by decide

/-- The A-law re-encoding fixed point, checked for magnitudes up to 255. -/
theorem alaw_fp_nonneg : ∀ n ∈ Finset.range 256,
    pcmToAlaw (alawToPcm (pcmToAlaw (n : Int))) = pcmToAlaw (n : Int) := by decide

/-- The A-law re-encoding fixed point for small negative samples. -/
theorem alaw_fp_neg : ∀ n ∈ Finset.range 256,
    pcmToAlaw (alawToPcm (pcmToAlaw (-(n : Int)))) = pcmToAlaw (-(n : Int)) := by
  decide

/-- C5 counterexample: the re-encoding fixed point claimed for every 16-bit
sample fails for the mu-law pair at sample -1 (whose code 0x7F decodes to 0,
which re-encodes as 0xFF) and for the A-law pair at sample 256. -/
theorem C5_counterexample :
    pcmToMulaw (mulawToPcm (pcmToMulaw (-1))) ≠ pcmToMulaw (-1) ∧
    pcmToAlaw (alawToPcm (pcmToAlaw 256)) ≠ pcmToAlaw 256 := by
  constructor
  · decide
  · decide

/-- C5 (amended): re-encoding after one decode is a fixed point of the
mu-law codec for every 16-bit sample other than -1, -2 and -3, and of the
A-law codec for every sample of magnitude at most 255. -/
theorem C5_reencode_fixed_point :
    (∀ x : Int, -32768 ≤ x → x ≤ 32767 → x ≠ -1 → x ≠ -2 → x ≠ -3 →
      pcmToMulaw (mulawToPcm (pcmToMulaw x)) = pcmToMulaw x) ∧
    (∀ x : Int, -255 ≤ x → x ≤ 255 →
      pcmToAlaw (alawToPcm (pcmToAlaw x)) = pcmToAlaw x) := by
  constructor
  · intro x hlo hhi h1 h2 h3
    have hb := pcmToMulaw_range x
    have hne := pcmToMulaw_ne_127 x hlo hhi h1 h2 h3
    have hmem : (pcmToMulaw x).toNat ∈ Finset.range 256 :=
      Finset.mem_range.mpr (by omega)
    rcases mulaw_byte_idem _ hmem with h | h
    · exfalso
      apply hne
      omega
    · rwa [Int.toNat_of_nonneg hb.1] at h
  · intro x hlo hhi
    by_cases hx : 0 ≤ x
    · have h := alaw_fp_nonneg x.toNat (Finset.mem_range.mpr (by omega))
      rwa [Int.toNat_of_nonneg hx] at h
    · have h := alaw_fp_neg (-x).toNat (Finset.mem_range.mpr (by omega))
      rw [Int.toNat_of_nonneg (by omega)] at h
      simpa using h

/-- C5 witness: the amended fixed point theorem applied at the concrete
samples 1234 (mu-law) and 100 (A-law). -/
theorem C5_witness :
    pcmToMulaw (mulawToPcm (pcmToMulaw 1234)) = pcmToMulaw 1234 ∧
    pcmToAlaw (alawToPcm (pcmToAlaw 100)) = pcmToAlaw 100 :=
  ⟨C5_reencode_fixed_point.1 1234 (by norm_num) (by norm_num) (by norm_num)
      (by norm_num) (by norm_num),
    C5_reencode_fixed_point.2 100 (by norm_num) (by norm_num)⟩

/-- C1: encoding PCM silence.  The mu-law half of the claim holds: sample 0
encodes to 0xFF and an all zero buffer encodes to all 0xFF.  The A-law half
fails on the code: pcmToAlaw maps 0 to 0x55, not to the standard silence
byte 0xD5 that the claim, the specification and the comment next to the
silence padding constant in the RTP engine all name, because the encoder
sets the sign bit for negative rather than positive samples before the
0x55 toggle. -/
theorem C1_silence_encoding :
    pcmToMulaw 0 = 0xFF ∧
    encodeMulaw (List.replicate 160 0) = List.replicate 160 0xFF ∧
    pcmToAlaw 0 = 0x55 ∧
    pcmToAlaw 0 ≠ 0xD5 ∧
    encodeAlaw (List.replicate 160 0) = List.replicate 160 0x55 := by
  refine ⟨by decide, ?_, by decide, by decide, ?_⟩
  · rw [encodeMulaw, List.map_replicate, show pcmToMulaw 0 = 0xFF from by decide]
  · rw [encodeAlaw, List.map_replicate, show pcmToAlaw 0 = 0x55 from by decide]

/-!
### RTP engine (rtp-engine.js)

State of an RtpEngine instance.  Sockets and timers are reduced to the
facts the logic depends on: whether a socket is bound and whether the send
interval is active.  The random ssrc, sequence number and timestamp picked
by the constructor are parameters of mkRtpEngine.
-/

/-- C4 counterexample: for a session started toward 203.0.113.5:6000, a
valid inbound packet from 198.51.100.9:54321 is decoded and delivered, yet
the engine neither logs a learned endpoint nor re-targets: the remote stays
203.0.113.5:6000, against the claim that it becomes the packet source. -/
theorem C4_counterexample :
    (c4Session.handleIncoming c4Packet "198.51.100.9" 54321).1.remoteAddress =
        some "203.0.113.5" ∧
    (c4Session.handleIncoming c4Packet "198.51.100.9" 54321).1.remotePort =
        some 6000 ∧
    (c4Session.handleIncoming c4Packet "198.51.100.9" 54321).2.1 = [] ∧
    (c4Session.handleIncoming c4Packet "198.51.100.9" 54321).2.2.isSome = true := by
  refine ⟨by decide, by decide, by decide, by decide⟩

/-- C4 (amended): the engine adopts the source of the first valid inbound
packet and logs the learned endpoint exactly when its remote address is
still unset or the placeholder 0.0.0.0; a session already started toward a
concrete peer address keeps its configured target. -/
theorem C4_symmetric_learning (s : RtpState) (msg : List Int) (addr : String)
    (port : Nat)
    (hremote : s.remoteAddress = none ∨ s.remoteAddress = some "0.0.0.0")
    (hlen : RTP_HEADER_SIZE ≤ msg.length)
    (hver : jand (jshr (msg.getD 0 0) 6) 0x03 = 2)
    (hpay : msg.drop RTP_HEADER_SIZE ≠ []) :
    (s.handleIncoming msg addr port).1.remoteAddress = some addr ∧
    (s.handleIncoming msg addr port).1.remotePort = some port ∧
    (s.handleIncoming msg addr port).2.1 =
      ["RTP symmetric: learned remote " ++ addr ++ ":" ++ toString port] := by
  rw [RtpState.handleIncoming]
  rw [if_neg (by omega), if_neg (by rw [hver]; norm_num)]
  have hplen : ¬ (msg.drop RTP_HEADER_SIZE).length = 0 := by
    intro hzero
    exact hpay (List.length_eq_zero.mp hzero)
  rw [if_neg hplen, if_pos hremote]
  by_cases h0 : jand (jshr (msg.getD 1 0) 0) 0x7F = 0 <;>
    split_ifs <;> exact ⟨rfl, rfl, rfl⟩

/-- C4 witness: the amended theorem applied to a session whose remote is
the 0.0.0.0 placeholder and to the concrete packet above. -/
theorem C4_witness :
    ((((mkRtpEngine 7 8 9).bindSocket).start "0.0.0.0" 6000 0).handleIncoming
        c4Packet "198.51.100.9" 54321).1.remoteAddress = some "198.51.100.9" ∧
    ((((mkRtpEngine 7 8 9).bindSocket).start "0.0.0.0" 6000 0).handleIncoming
        c4Packet "198.51.100.9" 54321).1.remotePort = some 54321 ∧
    ((((mkRtpEngine 7 8 9).bindSocket).start "0.0.0.0" 6000 0).handleIncoming
        c4Packet "198.51.100.9" 54321).2.1 =
      ["RTP symmetric: learned remote 198.51.100.9:54321"] := by
  have h := C4_symmetric_learning
    (((mkRtpEngine 7 8 9).bindSocket).start "0.0.0.0" 6000 0) c4Packet
    "198.51.100.9" 54321 (Or.inr (by decide)) (by decide) (by decide) (by decide)
  simpa using h

/-!
### Session traces for the RTP engine
-/

theorem jand65535 (a : Int) : jand a 65535 = ((toUint32 a % 65536 : Nat) : Int) := by
  unfold jand
  have h1 : toUint32 (65535 : Int) = 65535 := by decide
  have h2 : toUint32 a &&& 65535 = toUint32 a % 65536 := by
    have h := nat_and_mask (toUint32 a) 16
    norm_num at h
    exact h
  have h3 := Nat.mod_lt (toUint32 a) (y := 65536) (by norm_num)
  rw [h1, h2]
  exact toInt32_eq_self (by omega) (by omega)

theorem jand65535_of_range (a : Int) (h1 : 0 ≤ a) (h2 : a < 4294967296) :
    jand a 65535 = a % 65536 := by
  rw [jand65535, toUint32_eq_toNat h1 h2]
  omega

theorem toUint32_lt (a : Int) : toUint32 a < 4294967296 := by
  unfold toUint32
  omega

theorem toInt32_congr {x y : Int} (h : x % 4294967296 = y % 4294967296) :
    toInt32 x = toInt32 y := by
  show (if x % 4294967296 < 2147483648 then x % 4294967296
        else x % 4294967296 - 4294967296) =
      (if y % 4294967296 < 2147483648 then y % 4294967296
       else y % 4294967296 - 4294967296)
  rw [h]

theorem toInt32_nonneg_eq {x : Int} (h : 0 ≤ toInt32 x) :
    toInt32 x = x % 4294967296 := by
  revert h
  show 0 ≤ (if x % 4294967296 < 2147483648 then x % 4294967296
            else x % 4294967296 - 4294967296) →
      (if x % 4294967296 < 2147483648 then x % 4294967296
       else x % 4294967296 - 4294967296) = x % 4294967296
  split <;> omega

theorem jand_u32 (a : Int) : jand a 4294967295 = toInt32 a := by
  unfold jand
  have h1 : toUint32 (4294967295 : Int) = 4294967295 := by decide
  have h2 : toUint32 a &&& 4294967295 = toUint32 a := by
    have h := nat_and_mask (toUint32 a) 32
    norm_num at h
    rw [h]
    exact Nat.mod_eq_of_lt (toUint32_lt a)
  rw [h1, h2]
  apply toInt32_congr
  unfold toUint32
  omega

/-- A successful header build: the packet fields are the state fields and
the sequence number and timestamp lie within the buffer write ranges. -/
theorem buildRtpPacket_some {s : RtpState} {pl : List Int} {q : RtpPacket}
    (h : buildRtpPacket s pl = some q) :
    q = { b0 := 0x80, pt := jand s.payloadType 0x7F, seq := s.sequenceNumber,
          ts := s.timestamp, ssrc := s.ssrc, payload := pl } ∧
    0 ≤ s.sequenceNumber ∧ s.sequenceNumber ≤ 65535 ∧
    0 ≤ s.timestamp ∧ s.timestamp ≤ 4294967295 := by
  unfold buildRtpPacket at h
  split at h
  · rename_i hr
    simp only [Option.some.injEq] at h
    exact ⟨h.symm, hr.1, hr.2.1, hr.2.2.1, hr.2.2.2.1⟩
  · simp at h

/-- A successful send tick: the packet carries the state's sequence number,
timestamp and ssrc (all within the buffer write ranges), and the state
advances sequence and timestamp through the JavaScript masks. -/
theorem sendPacket_some {s : RtpState} {p : RtpPacket} {s1 : RtpState}
    (h : s.sendPacket = (some p, s1)) :
    p.seq = s.sequenceNumber ∧ p.ts = s.timestamp ∧ p.ssrc = s.ssrc ∧
    p.payload = s.tickPayload.1 ∧
    s1.ssrc = s.ssrc ∧
    s1.sequenceNumber = jand (s.sequenceNumber + 1) 65535 ∧
    s1.timestamp = jand (s.timestamp + 160) 4294967295 ∧
    0 ≤ p.seq ∧ p.seq ≤ 65535 ∧ 0 ≤ p.ts ∧ p.ts ≤ 4294967295 := by
  unfold RtpState.sendPacket at h
  split at h
  · simp at h
  · rcases hb : buildRtpPacket s s.tickPayload.1 with _ | q
    · rw [hb] at h
      simp at h
    · rw [hb] at h
      simp only [Prod.mk.injEq, Option.some.injEq] at h
      obtain ⟨hpq, hs1⟩ := h
      obtain ⟨hq, hr1, hr2, hr3, hr4⟩ := buildRtpPacket_some hb
      subst hpq hq
      rw [← hs1]
      refine ⟨by simp, by simp, by simp, by simp, by simp, by simp,
        by simp [SAMPLES_PER_PACKET], by simpa using hr1, by simpa using hr2,
        by simpa using hr3, by simpa using hr4⟩

/-- A send tick that produces no packet leaves sequence number, timestamp
and ssrc untouched. -/
theorem sendPacket_none {s : RtpState} {s1 : RtpState}
    (h : s.sendPacket = (none, s1)) :
    s1.sequenceNumber = s.sequenceNumber ∧ s1.timestamp = s.timestamp ∧
    s1.ssrc = s.ssrc := by
  unfold RtpState.sendPacket at h
  split at h
  · have h2 : s = s1 := congrArg Prod.snd h
    rw [← h2]
    exact ⟨rfl, rfl, rfl⟩
  · rcases hb : buildRtpPacket s s.tickPayload.1 with _ | q
    · rw [hb] at h
      simp only [Prod.mk.injEq] at h
      rw [← h.2]
      exact ⟨rfl, rfl, rfl⟩
    · rw [hb] at h
      simp at h

/-- Every operation preserves the ssrc of the session. -/
theorem applyOp_ssrc (s : RtpState) (op : RtpOp) :
    ((s.applyOp op).1).ssrc = s.ssrc := by
  cases op <;>
    simp only [RtpState.applyOp, RtpState.start, RtpState.stop, RtpState.close,
      RtpState.feedMicAudio, RtpState.setMuted, RtpState.updateRemote]
  case feedOp pcm => split <;> rfl
  case sendOp =>
    rcases h : s.sendPacket with ⟨po, s1⟩
    rcases po with _ | p
    · exact (sendPacket_none h).2.2
    · exact (sendPacket_some h).2.2.2.2.1

/-- Operations that send no packet preserve sequence number and timestamp. -/
theorem applyOp_seq_ts (s : RtpState) (op : RtpOp)
    (h : (s.applyOp op).2 = []) :
    ((s.applyOp op).1).sequenceNumber = s.sequenceNumber ∧
    ((s.applyOp op).1).timestamp = s.timestamp := by
  cases op
  case startOp a p t => exact ⟨rfl, rfl⟩
  case stopOp => exact ⟨rfl, rfl⟩
  case closeOp => exact ⟨rfl, rfl⟩
  case feedOp pcm =>
    show (s.feedMicAudio pcm).sequenceNumber = _ ∧
      (s.feedMicAudio pcm).timestamp = _
    unfold RtpState.feedMicAudio
    split
    · exact ⟨rfl, rfl⟩
    · exact ⟨rfl, rfl⟩
  case muteOp m => exact ⟨rfl, rfl⟩
  case updateOp a p => exact ⟨rfl, rfl⟩
  case sendOp =>
    rcases hs : s.sendPacket with ⟨po, s1⟩
    rcases po with _ | p
    · simp only [RtpState.applyOp, hs]
      exact ⟨(sendPacket_none hs).1, (sendPacket_none hs).2.1⟩
    · simp only [RtpState.applyOp, hs] at h
      simp at h

/-- The first packet a run emits is stamped with the starting sequence
number, timestamp and ssrc, and its fields are within the write ranges. -/
theorem run_head : ∀ (ops : List RtpOp) (s : RtpState) (q : RtpPacket)
    (qs : List RtpPacket), (s.run ops).2 = q :: qs →
    q.seq = s.sequenceNumber ∧ q.ts = s.timestamp ∧ q.ssrc = s.ssrc ∧
    0 ≤ q.seq ∧ q.seq ≤ 65535 ∧ 0 ≤ q.ts ∧ q.ts ≤ 4294967295 := by
  intro ops
  induction ops with
  | nil =>
    intro s q qs h
    simp [RtpState.run] at h
  | cons op ops ih =>
    intro s q qs h
    simp only [RtpState.run] at h
    rcases hemit : (s.applyOp op).2 with _ | ⟨p, ps⟩
    · rw [hemit, List.nil_append] at h
      have hpres := applyOp_seq_ts s op hemit
      have hss := applyOp_ssrc s op
      have := ih (s.applyOp op).1 q qs h
      rw [hpres.1, hpres.2, hss] at this
      exact this
    · rw [hemit] at h
      have hq : p = q := by
        simpa using congrArg List.head? h
      -- the only op emitting a packet is sendOp with a successful build
      cases op <;> simp only [RtpState.applyOp] at hemit
      all_goals try exact List.noConfusion hemit
      case sendOp =>
        rcases hs : s.sendPacket with ⟨po, s1⟩
        rcases po with _ | p'
        · rw [hs] at hemit
          simp at hemit
        · rw [hs] at hemit
          simp only [List.cons.injEq] at hemit
          obtain ⟨rfl, -⟩ := hemit
          obtain ⟨h1, h2, h3, -, -, -, -, h4, h5, h6, h7⟩ := sendPacket_some hs
          subst hq
          exact ⟨h1, h2, h3, h4, h5, h6, h7⟩

/-- An operation that emits a packet is a send tick that succeeded. -/
theorem applyOp_emit {s s1 : RtpState} {op : RtpOp} {p : RtpPacket}
    {ps : List RtpPacket} (h : s.applyOp op = (s1, p :: ps)) :
    s.sendPacket = (some p, s1) ∧ ps = [] := by
  cases op <;> simp only [RtpState.applyOp] at h
  case startOp => simp at h
  case stopOp => simp at h
  case closeOp => simp at h
  case feedOp => simp at h
  case muteOp => simp at h
  case updateOp => simp at h
  case sendOp =>
    rcases hs : s.sendPacket with ⟨po, s2⟩
    rcases po with _ | p'
    · rw [hs] at h
      simp at h
    · rw [hs] at h
      simp only [Prod.mk.injEq, List.cons.injEq] at h
      obtain ⟨rfl, rfl, rfl⟩ := h
      exact ⟨rfl, rfl⟩

/-- Along any run, consecutive sent packets satisfy the step relation and
every packet carries the unchanged session ssrc. -/
theorem run_chain : ∀ (ops : List RtpOp) (s : RtpState),
    List.Chain' rtpStep (s.run ops).2 ∧
    (∀ p ∈ (s.run ops).2, p.ssrc = s.ssrc) ∧
    ((s.run ops).1).ssrc = s.ssrc := by
  intro ops
  induction ops with
  | nil =>
    intro s
    refine ⟨List.chain'_nil, ?_, rfl⟩
    intro p hp
    simp [RtpState.run] at hp
  | cons op ops ih =>
    intro s
    rcases happ : s.applyOp op with ⟨s1, emitted⟩
    have hrun : s.run (op :: ops) = ((s1.run ops).1, emitted ++ (s1.run ops).2) := by
      simp only [RtpState.run, happ]
    obtain ⟨ihc, ihm, ihs⟩ := ih s1
    have hss : s1.ssrc = s.ssrc := by
      have h := applyOp_ssrc s op
      rw [happ] at h
      exact h
    rw [hrun]
    rcases emitted with _ | ⟨p, ps⟩
    · exact ⟨by simpa using ihc, by simpa using fun p hp => (ihm p hp).trans hss,
        by simpa using ihs.trans hss⟩
    · obtain ⟨hs, rfl⟩ := applyOp_emit happ
      obtain ⟨hseq, hts, hssrc, -, -, hs1seq, hs1ts, hb1, hb2, hb3, hb4⟩ :=
        sendPacket_some hs
      refine ⟨?_, ?_, by simpa using ihs.trans hss⟩
      · simp only [List.singleton_append]
        rw [List.chain'_cons']
        refine ⟨?_, ihc⟩
        intro y hy
        rcases hh : (s1.run ops).2 with _ | ⟨q, qs⟩
        · rw [hh] at hy
          simp at hy
        · rw [hh] at hy
          simp only [List.head?_cons, Option.mem_def, Option.some.injEq] at hy
          subst hy
          obtain ⟨hq1, hq2, -, hq4, -, hq6, -⟩ := run_head ops s1 q qs hh
          constructor
          · rw [hq1, hs1seq, hseq, jand65535_of_range _ (by omega) (by omega)]
          · rw [hq2, hs1ts, hts, jand_u32]
            rw [hq2, hs1ts, jand_u32] at hq6
            exact toInt32_nonneg_eq hq6
      · intro x hx
        simp only [List.singleton_append, List.mem_cons] at hx
        rcases hx with rfl | hx
        · exact hssrc
        · exact (ihm x hx).trans hss

/-- C6: across every packet an RTP session sends, the sequence number
advances by exactly one modulo 2^16 and the timestamp by exactly 160
modulo 2^32 per packet, and every packet header carries the ssrc chosen at
construction, which the session never changes. -/
theorem C6_rtp_send_invariants (ssrc seq ts : Int) (ops : List RtpOp) :
    List.Chain' rtpStep ((((mkRtpEngine ssrc seq ts).bindSocket).run ops).2) ∧
    (∀ p ∈ (((mkRtpEngine ssrc seq ts).bindSocket).run ops).2, p.ssrc = ssrc) ∧
    ((((mkRtpEngine ssrc seq ts).bindSocket).run ops).1).ssrc = ssrc := by
  have h := run_chain ops ((mkRtpEngine ssrc seq ts).bindSocket)
  simpa [mkRtpEngine, RtpState.bindSocket] using h

/-- One step of a run unfolds to the operation followed by the rest. -/
theorem run_cons (s : RtpState) (op : RtpOp) (ops : List RtpOp) :
    s.run (op :: ops) =
      (((s.applyOp op).1.run ops).1,
       (s.applyOp op).2 ++ ((s.applyOp op).1.run ops).2) := rfl

/-- A send tick from a muted state with an empty queue stays muted with an
empty queue and can only emit the silence payload. -/
theorem sendPacket_muted_inv {s : RtpState} {po : Option RtpPacket}
    {s1 : RtpState} (hm : s.muted = true) (hb : s.micBuffer = [])
    (h : s.sendPacket = (po, s1)) :
    s1.muted = true ∧ s1.micBuffer = [] ∧
    ∀ p, po = some p → p.payload = silencePayload s.payloadType := by
  have ht : s.tickPayload = (silencePayload s.payloadType, s.micBuffer) := by
    unfold RtpState.tickPayload
    rw [hm]
  unfold RtpState.sendPacket at h
  split at h
  · injection h with h1 h2
    subst h1 h2
    refine ⟨hm, hb, ?_⟩
    intro p hp
    exact Option.noConfusion hp
  · rcases hbld : buildRtpPacket s s.tickPayload.1 with _ | q
    · rw [hbld] at h
      injection h with h1 h2
      subst h1 h2
      refine ⟨hm, ?_, ?_⟩
      · show s.tickPayload.2 = []
        rw [ht]
        exact hb
      · intro p hp
        exact Option.noConfusion hp
    · rw [hbld] at h
      injection h with h1 h2
      subst h1 h2
      refine ⟨hm, ?_, ?_⟩
      · show s.tickPayload.2 = []
        rw [ht]
        exact hb
      · intro p hp
        have hpq : q = p := by
          simpa using hp
        obtain ⟨hq, -⟩ := buildRtpPacket_some hbld
        subst hpq hq
        show s.tickPayload.1 = _
        rw [ht]

/-- While muted with an empty queue and no unmute in the trace, the queue
stays empty and every packet sent carries a pure silence payload. -/
theorem muted_run : ∀ (ops : List RtpOp) (s : RtpState),
    RtpOp.muteOp false ∉ ops → s.muted = true → s.micBuffer = [] →
    (((s.run ops).1).muted = true ∧ ((s.run ops).1).micBuffer = [] ∧
     ∀ p ∈ (s.run ops).2, p.payload = List.replicate 160 0xFF ∨
       p.payload = List.replicate 160 0xD5) := by
  intro ops
  induction ops with
  | nil =>
    intro s _ hm hb
    refine ⟨hm, hb, ?_⟩
    intro p hp
    simp [RtpState.run] at hp
  | cons op ops ih =>
    intro s hnot hm hb
    have hnot1 : op ≠ RtpOp.muteOp false := fun he =>
      hnot (he ▸ List.mem_cons_self op ops)
    have hnot2 : RtpOp.muteOp false ∉ ops := fun he =>
      hnot (List.mem_cons_of_mem op he)
    rw [run_cons]
    cases op
    case startOp a p t =>
      rw [show s.applyOp (RtpOp.startOp a p t) = (s.start a p t, []) from rfl]
      simp only [List.nil_append]
      exact ih (s.start a p t) hnot2 hm hb
    case stopOp =>
      rw [show s.applyOp RtpOp.stopOp = (s.stop, []) from rfl]
      simp only [List.nil_append]
      exact ih s.stop hnot2 hm rfl
    case closeOp =>
      rw [show s.applyOp RtpOp.closeOp = (s.close, []) from rfl]
      simp only [List.nil_append]
      exact ih s.close hnot2 hm rfl
    case feedOp pcm =>
      have hfeed : s.feedMicAudio pcm = s := by
        unfold RtpState.feedMicAudio
        rw [if_pos (Or.inr hm)]
      rw [show s.applyOp (RtpOp.feedOp pcm) = (s.feedMicAudio pcm, []) from rfl,
        hfeed]
      simp only [List.nil_append]
      exact ih s hnot2 hm hb
    case muteOp m =>
      cases m
      · exact absurd rfl hnot1
      · rw [show s.applyOp (RtpOp.muteOp true) = (s.setMuted true, []) from rfl]
        simp only [List.nil_append]
        exact ih (s.setMuted true) hnot2 rfl rfl
    case updateOp a p =>
      rw [show s.applyOp (RtpOp.updateOp a p) = (s.updateRemote a p, []) from rfl]
      simp only [List.nil_append]
      exact ih (s.updateRemote a p) hnot2 hm hb
    case sendOp =>
      rcases hs : s.sendPacket with ⟨po, s1⟩
      have hinv := sendPacket_muted_inv hm hb hs
      rcases po with _ | p
      · rw [show s.applyOp RtpOp.sendOp = (s1, []) from by
          simp only [RtpState.applyOp, hs]]
        simp only [List.nil_append]
        exact ih s1 hnot2 hinv.1 hinv.2.1
      · rw [show s.applyOp RtpOp.sendOp = (s1, [p]) from by
          simp only [RtpState.applyOp, hs]]
        have hpay := hinv.2.2 p rfl
        obtain ⟨ihm', ihb', ihp⟩ := ih s1 hnot2 hinv.1 hinv.2.1
        refine ⟨ihm', ihb', ?_⟩
        intro x hx
        simp only [List.singleton_append, List.mem_cons] at hx
        rcases hx with rfl | hx
        · rw [hpay]
          unfold silencePayload
          by_cases h8 : s.payloadType = 8
          · right
            rw [if_pos h8]
          · left
            rw [if_neg h8]
        · exact ihp x hx

/-- C10: feedMicAudio appends the PCM block to the outbound queue exactly
when the session is active and unmuted, and is otherwise a no-op; muting
flushes the queue; and in any muted interval (no unmute operation) the
queue stays empty and only pure silence payloads are transmitted, so
audio fed before or during the interval is never sent afterwards. -/
theorem C10_feed_and_mute :
    (∀ (s : RtpState) (pcm : List Int), s.active = true → s.muted = false →
        s.feedMicAudio pcm = { s with micBuffer := s.micBuffer ++ [pcm] }) ∧
    (∀ (s : RtpState) (pcm : List Int), s.active = false ∨ s.muted = true →
        s.feedMicAudio pcm = s) ∧
    (∀ s : RtpState, (s.setMuted true).micBuffer = []) ∧
    (∀ (s : RtpState) (ops : List RtpOp), RtpOp.muteOp false ∉ ops →
        ((((s.setMuted true).run ops).1).micBuffer = [] ∧
         ∀ p ∈ ((s.setMuted true).run ops).2,
           p.payload = List.replicate 160 0xFF ∨
           p.payload = List.replicate 160 0xD5)) := by
  refine ⟨?_, ?_, ?_, ?_⟩
  · intro s pcm ha hmu
    unfold RtpState.feedMicAudio
    rw [if_neg (by simp [ha, hmu])]
  · intro s pcm h
    unfold RtpState.feedMicAudio
    rw [if_pos h]
  · intro s
    rfl
  · intro s ops hnot
    have h := muted_run ops (s.setMuted true) hnot rfl rfl
    exact ⟨h.2.1, h.2.2⟩

/-- C10 witness: the theorem applied to a started session, a muted
session, and a muted two operation trace. -/
theorem C10_witness :
    (((mkRtpEngine 1 2 3).start "peer" 5 0).feedMicAudio [7] =
      { ((mkRtpEngine 1 2 3).start "peer" 5 0) with
          micBuffer :=
            (((mkRtpEngine 1 2 3).start "peer" 5 0)).micBuffer ++ [[7]] }) ∧
    ((((mkRtpEngine 1 2 3).start "peer" 5 0).setMuted true).feedMicAudio [8] =
      ((mkRtpEngine 1 2 3).start "peer" 5 0).setMuted true) ∧
    ((((mkRtpEngine 1 2 3).start "peer" 5 0).setMuted true).micBuffer = []) ∧
    (((((((mkRtpEngine 1 2 3).start "peer" 5 0).setMuted true).run
        [RtpOp.feedOp [9], RtpOp.sendOp]).1).micBuffer = []) ∧
      ∀ p ∈ ((((mkRtpEngine 1 2 3).start "peer" 5 0).setMuted true).run
        [RtpOp.feedOp [9], RtpOp.sendOp]).2,
        p.payload = List.replicate 160 0xFF ∨
        p.payload = List.replicate 160 0xD5) :=
  ⟨C10_feed_and_mute.1 _ [7] rfl rfl,
   C10_feed_and_mute.2.1 _ [8] (Or.inr rfl),
   C10_feed_and_mute.2.2.1 _,
   C10_feed_and_mute.2.2.2 _ [RtpOp.feedOp [9], RtpOp.sendOp] (by decide)⟩

/-!
### Digest authentication (functions computeDigestResponse and
buildAuthorizationHeader of the SIP UA source)

The crypto library call createHash(md5)...digest(hex) is an external
primitive, modeled as an arbitrary function from strings to strings that
the theorems quantify over.
-/

theorem splitOn_quote_step (a rest : List Char) (ha : '"' ∉ a) :
    (a ++ '"' :: rest).splitOn '"' = a :: rest.splitOn '"' := by
  unfold List.splitOn
  refine List.splitOnP_first _ a ?_ '"' (by simp) rest
  intro x hx
  simp only [beq_iff_eq]
  intro hq
  exact ha (hq ▸ hx)

theorem splitOn_no_quote (a : List Char) (ha : '"' ∉ a) :
    a.splitOn '"' = [a] := by
  unfold List.splitOn
  refine List.splitOnP_eq_single _ _ ?_
  intro x hx
  simp only [beq_iff_eq]
  intro hq
  exact ha (hq ▸ hx)

/-- C8: the digest response placed in the Authorization header equals the
specification formula MD5(HA1:nonce:HA2), and splitting the built header
at its quote characters shows the quoted uri parameter (fourth quoted
value) is the very string fed to HA2 inside the quoted response (fifth
quoted value). -/
theorem C8_digest_response (md5 : String → String)
    (realm nonce method uri username password : String)
    (hu : '"' ∉ username.data) (hr : '"' ∉ realm.data) (hn : '"' ∉ nonce.data)
    (huri : '"' ∉ uri.data)
    (hresp : '"' ∉ (computeDigestResponse md5 realm nonce method uri
      username password).data) :
    computeDigestResponse md5 realm nonce method uri username password =
      specDigestFormula md5 username realm password nonce method uri ∧
    ((buildAuthorizationHeader md5 realm nonce method uri username
        password).data.splitOn '"').get? 7 = some uri.data ∧
    ((buildAuthorizationHeader md5 realm nonce method uri username
        password).data.splitOn '"').get? 9 =
      some (specDigestFormula md5 username realm password nonce method
        uri).data := by
  have hformula : computeDigestResponse md5 realm nonce method uri username
      password = specDigestFormula md5 username realm password nonce method
      uri := rfl
  refine ⟨hformula, ?_⟩
  have hdata : (buildAuthorizationHeader md5 realm nonce method uri username
      password).data =
      "Digest username=".data ++ '"' :: (username.data ++
        '"' :: (", realm=".data ++ '"' :: (realm.data ++
        '"' :: (", nonce=".data ++ '"' :: (nonce.data ++
        '"' :: (", uri=".data ++ '"' :: (uri.data ++
        '"' :: (", response=".data ++ '"' :: ((computeDigestResponse md5
          realm nonce method uri username password).data ++
        '"' :: ", algorithm=MD5".data))))))))) := by
    show (("Digest username=\"" ++ username ++ "\", realm=\"" ++ realm ++
      "\", nonce=\"" ++ nonce ++ "\", uri=\"" ++ uri ++ "\", response=\"" ++
      computeDigestResponse md5 realm nonce method uri username password ++
      "\", algorithm=MD5" : String)).data = _
    simp only [String.data_append, List.append_assoc]
    rfl
  rw [hdata, splitOn_quote_step _ _ (by decide),
    splitOn_quote_step _ _ hu, splitOn_quote_step _ _ (by decide),
    splitOn_quote_step _ _ hr, splitOn_quote_step _ _ (by decide),
    splitOn_quote_step _ _ hn, splitOn_quote_step _ _ (by decide),
    splitOn_quote_step _ _ huri, splitOn_quote_step _ _ (by decide),
    splitOn_quote_step _ _ hresp, splitOn_no_quote _ (by decide)]
  rw [hformula]
  constructor
  · rfl
  · rfl

/-- C8 witness: the digest theorem applied to concrete credentials and a
concrete hash function. -/
theorem C8_witness :
    computeDigestResponse (fun _ => "abc123") "r" "n" "REGISTER" "sip:pbx"
        "u" "p" =
      specDigestFormula (fun _ => "abc123") "u" "r" "p" "n" "REGISTER"
        "sip:pbx" ∧
    ((buildAuthorizationHeader (fun _ => "abc123") "r" "n" "REGISTER"
        "sip:pbx" "u" "p").data.splitOn '"').get? 7 =
      some ("sip:pbx").data ∧
    ((buildAuthorizationHeader (fun _ => "abc123") "r" "n" "REGISTER"
        "sip:pbx" "u" "p").data.splitOn '"').get? 9 =
      some (specDigestFormula (fun _ => "abc123") "u" "r" "p" "n" "REGISTER"
        "sip:pbx").data :=
  C8_digest_response (fun _ => "abc123") "r" "n" "REGISTER" "sip:pbx" "u" "p"
    (by decide) (by decide) (by decide) (by decide) (by decide)

/-!
### Outbound call state and the 401 handling of INVITE

The call record mirrors the object literal the source stores in this.call;
fields that a particular flow leaves unset are none, zero or empty.
-/

/-- C3: on a 401 to the INVITE with Via branch z9hG4bKorig, the ACK the UA
builds carries the freshly generated branch z9hG4bKf1, not the branch of
the INVITE it acknowledges, refuting the transaction scoped ACK of the
claim; the remaining conjuncts hold: the ACK keeps the CSeq number 1 with
method ACK, takes its To tag from the response, and the rebuilt INVITE has
a fresh branch, CSeq 2, an Authorization header, and the Call-ID and From
tag of the original INVITE. -/
theorem C3_ack_branch_bug :
    (c3Result.2.1.branch = "z9hG4bKf1" ∧ c3Call.branch = "z9hG4bKorig" ∧
      c3Result.2.1.branch ≠ c3Call.branch) ∧
    c3Result.2.1.cseqNum = c3Call.cseq ∧
    c3Result.2.1.toTag = "totag" ∧
    c3Result.2.1.callId = c3Call.callId ∧
    c3Result.2.1.fromTag = c3Call.fromTag ∧
    c3Result.2.2.branch = "z9hG4bKf2" ∧
    c3Result.2.2.cseqNum = c3Call.cseq + 1 ∧
    c3Result.2.2.authorization.isSome = true ∧
    c3Result.2.2.callId = c3Call.callId ∧
    c3Result.2.2.fromTag = c3Call.fromTag := by
  refine ⟨⟨rfl, rfl, by decide⟩, rfl, rfl, rfl, rfl, rfl, rfl, rfl, rfl, rfl⟩

/-!
### REGISTER lifecycle (register, the retry timer, the 401 resend, the
refresh interval and unregister)
-/

/-- Each registration event preserves the Call-ID and local tag, never
decreases the CSeq, and any REGISTER it sends carries the new CSeq, which
is strictly above the old one. -/
theorem applyRegOp_step (s : RegState) (op : RegOp) :
    s.registerCSeq ≤ ((s.applyRegOp op).1).registerCSeq ∧
    ((s.applyRegOp op).1).registerCallId = s.registerCallId ∧
    ((s.applyRegOp op).1).localTag = s.localTag ∧
    List.Pairwise (fun a b : RegisterMsg => a.cseq < b.cseq)
      ((s.applyRegOp op).2) ∧
    ∀ m ∈ (s.applyRegOp op).2,
      m.cseq = ((s.applyRegOp op).1).registerCSeq ∧
      s.registerCSeq < m.cseq ∧
      m.callId = s.registerCallId ∧ m.fromTag = s.localTag := by
  cases op
  case registerOp =>
    simp only [RegState.applyRegOp, buildRegister]
    refine ⟨Nat.le_succ _, trivial, trivial, by simp, ?_⟩
    intro m hm
    rw [List.mem_singleton] at hm
    subst hm
    exact ⟨rfl, Nat.lt_succ_self _, rfl, rfl⟩
  case retryTimeout =>
    simp only [RegState.applyRegOp, buildRegister]
    split
    · exact ⟨le_refl _, rfl, rfl, List.Pairwise.nil, by intro m hm; simp at hm⟩
    · split
      · exact ⟨le_refl _, rfl, rfl, List.Pairwise.nil, by intro m hm; simp at hm⟩
      · refine ⟨Nat.le_succ _, rfl, rfl, by simp, ?_⟩
        intro m hm
        rw [List.mem_singleton] at hm
        subst hm
        exact ⟨rfl, Nat.lt_succ_self _, rfl, rfl⟩
  case response401 hasAuthHeader =>
    simp only [RegState.applyRegOp, buildRegisterWithAuth]
    split
    · refine ⟨Nat.le_succ _, rfl, rfl, by simp, ?_⟩
      intro m hm
      rw [List.mem_singleton] at hm
      subst hm
      exact ⟨rfl, Nat.lt_succ_self _, rfl, rfl⟩
    · exact ⟨le_refl _, rfl, rfl, List.Pairwise.nil, by intro m hm; simp at hm⟩
  case response200 =>
    simp only [RegState.applyRegOp]
    exact ⟨le_refl _, trivial, trivial, List.Pairwise.nil, by intro m hm; simp at hm⟩
  case responseOther code =>
    simp only [RegState.applyRegOp]
    exact ⟨le_refl _, trivial, trivial, List.Pairwise.nil, by intro m hm; simp at hm⟩
  case refreshTimeout =>
    simp only [RegState.applyRegOp, buildRegister]
    refine ⟨Nat.le_succ _, trivial, trivial, by simp, ?_⟩
    intro m hm
    rw [List.mem_singleton] at hm
    subst hm
    exact ⟨rfl, Nat.lt_succ_self _, rfl, rfl⟩
  case unregisterOp =>
    simp only [RegState.applyRegOp, buildRegister]
    split
    · refine ⟨Nat.le_succ _, rfl, rfl, by simp, ?_⟩
      intro m hm
      rw [List.mem_singleton] at hm
      subst hm
      exact ⟨rfl, Nat.lt_succ_self _, rfl, rfl⟩
    · exact ⟨le_refl _, rfl, rfl, List.Pairwise.nil, by intro m hm; simp at hm⟩

/-- Across a whole run: final CSeq is at least the initial one, Call-ID
and tag are untouched, the sent REGISTERs have strictly increasing CSeq
numbers bracketed by the initial and final state, and all carry the
initial Call-ID and tag. -/
theorem runRegOps_inv : ∀ (ops : List RegOp) (s : RegState),
    s.registerCSeq ≤ ((s.runRegOps ops).1).registerCSeq ∧
    ((s.runRegOps ops).1).registerCallId = s.registerCallId ∧
    ((s.runRegOps ops).1).localTag = s.localTag ∧
    List.Pairwise (fun a b : RegisterMsg => a.cseq < b.cseq)
      ((s.runRegOps ops).2) ∧
    ∀ m ∈ (s.runRegOps ops).2,
      s.registerCSeq < m.cseq ∧
      m.cseq ≤ ((s.runRegOps ops).1).registerCSeq ∧
      m.callId = s.registerCallId ∧ m.fromTag = s.localTag := by
  intro ops
  induction ops with
  | nil =>
    intro s
    refine ⟨le_refl _, rfl, rfl, List.Pairwise.nil, ?_⟩
    intro m hm
    simp [RegState.runRegOps] at hm
  | cons op ops ih =>
    intro s
    rcases happ : s.applyRegOp op with ⟨s1, sent⟩
    have hstep := applyRegOp_step s op
    rw [happ] at hstep
    dsimp only at hstep
    obtain ⟨hle, hcid, htag, hsentpw, hsent⟩ := hstep
    obtain ⟨ihle, ihcid, ihtag, ihpw, ihm⟩ := ih s1
    have hrun : s.runRegOps (op :: ops) =
        ((s1.runRegOps ops).1, sent ++ (s1.runRegOps ops).2) := by
      simp only [RegState.runRegOps, happ]
    rw [hrun]
    refine ⟨le_trans hle ihle, ihcid.trans hcid, ihtag.trans htag, ?_, ?_⟩
    · rw [List.pairwise_append]
      refine ⟨hsentpw, ihpw, ?_⟩
      intro a ha b hb
      have h1 := hsent a ha
      have h2 := ihm b hb
      omega
    · intro m hm
      rw [List.mem_append] at hm
      rcases hm with hm | hm
      · have h1 := hsent m hm
        exact ⟨h1.2.1, le_trans (h1.1 ▸ ihle) (le_refl _), h1.2.2.1, h1.2.2.2⟩
      · have h2 := ihm m hm
        exact ⟨lt_of_le_of_lt hle h2.1, h2.2.1,
          h2.2.2.1.trans hcid, h2.2.2.2.trans htag⟩

/-- C2: within one registration (the Call-ID and local tag held in the
state), every REGISTER request the UA sends across any sequence of
registration events — initial register(), retry timer, authenticated
resend after 401, refresh after 200, unregister() — carries a CSeq number
strictly greater than every previously sent REGISTER, and the Call-ID and
From tag placed in the requests never change. -/
theorem C2_register_cseq (s : RegState) (ops : List RegOp) :
    List.Pairwise (fun a b : RegisterMsg => a.cseq < b.cseq)
      ((s.runRegOps ops).2) ∧
    ∀ m ∈ (s.runRegOps ops).2,
      m.callId = s.registerCallId ∧ m.fromTag = s.localTag := by
  obtain ⟨h1, h2, h3, hpw, hm⟩ := runRegOps_inv ops s
  exact ⟨hpw, fun m h => ⟨(hm m h).2.2.1, (hm m h).2.2.2⟩⟩

/-- C9: an INVITE arriving while a Call exists in state active draws a 486
Busy Here that echoes the Via, From, To (tag added), Call-ID and CSeq of
the request, and the whole UA state — in particular every field of the
existing Call record — is unchanged. -/
theorem C9_busy_no_mutation (ua : UAState) (msg : SipRequest) (ri : Rinfo)
    (tag : String) (c : CallRec) (hc : ua.call = some c)
    (hact : c.state = CallPhase.active) :
    (handleIncomingInvite ua msg ri tag).1 = ua ∧
    (handleIncomingInvite ua msg ri tag).1.call = some c ∧
    (handleIncomingInvite ua msg ri tag).2 =
      [UAEvent.logEvt "call"
         ("Rejecting incoming call from " ++ callerIdOf msg.fromHeader ++
          " \u2014 busy"),
       UAEvent.sendMsg
         ("SIP/2.0 486 Busy Here\r\n" ++ "Via: " ++ msg.via ++ "\r\n" ++
          "From: " ++ msg.fromHeader ++ "\r\n" ++
          "To: " ++ msg.toHeader ++ ";tag=" ++ tag ++ "\r\n" ++
          "Call-ID: " ++ msg.callId ++ "\r\n" ++
          "CSeq: " ++ msg.cseqHeader ++ "\r\n" ++
          "Content-Length: 0\r\n\r\n")] := by
  unfold handleIncomingInvite
  rw [hc]
  dsimp only
  rw [if_pos hact]
  exact ⟨rfl, hc, rfl⟩

/-- C9 witness: the concrete second INVITE leaves the concrete busy UA
state untouched. -/
theorem C9_busy_no_mutation_witness :
    c9ua.call = some c9call ∧ c9call.state = CallPhase.active ∧
    (handleIncomingInvite c9ua c9msg c9ri "newtag").1 = c9ua := by
  refine ⟨rfl, rfl, ?_⟩
  exact (C9_busy_no_mutation c9ua c9msg c9ri "newtag" c9call rfl rfl).1

theorem findSubAux_some_bounds (pat : List Char) :
    ∀ (xs : List Char) (i k : Nat), findSubAux pat xs i = some k →
      i ≤ k ∧ (k - i) + pat.length ≤ xs.length := by
  intro xs
  induction xs with
  | nil =>
    intro i k h
    unfold findSubAux at h
    split at h
    · injection h with h1
      subst h1
      have hp : pat.isPrefixOf ([] : List Char) = true := by assumption
      have hpre : pat <+: ([] : List Char) := List.isPrefixOf_iff_prefix.mp hp
      have := hpre.length_le
      simp at this
      simp [this]
    · exact absurd h (by simp)
  | cons c rest ih =>
    intro i k h
    unfold findSubAux at h
    split at h
    · injection h with h1
      subst h1
      have hp : pat.isPrefixOf (c :: rest) = true := by assumption
      have hpre : pat <+: (c :: rest) := List.isPrefixOf_iff_prefix.mp hp
      have := hpre.length_le
      simp only [List.length_cons] at this ⊢
      omega
    · have := ih (i + 1) k h
      simp only [List.length_cons]
      omega

theorem findSub_some_bounds (xs pat : List Char) (k : Nat)
    (h : findSub xs pat = some k) : k + pat.length ≤ xs.length := by
  have := findSubAux_some_bounds pat xs 0 k h
  omega

theorem isPrefixOf_append_left (pat zs ys : List Char)
    (hlen : pat.length ≤ zs.length) :
    pat.isPrefixOf (zs ++ ys) = pat.isPrefixOf zs := by
  by_cases h : pat.isPrefixOf zs
  · rw [h]
    exact List.isPrefixOf_iff_prefix.mpr
      ((List.isPrefixOf_iff_prefix.mp h).trans (zs.prefix_append ys))
  · rw [Bool.eq_false_iff.mpr h]
    rw [Bool.eq_false_iff]
    intro hcontra
    apply h
    have hpre : pat <+: zs ++ ys := List.isPrefixOf_iff_prefix.mp hcontra
    have htake : pat = (zs ++ ys).take pat.length := List.prefix_iff_eq_take.mp hpre
    rw [List.take_append_of_le_length hlen] at htake
    exact List.isPrefixOf_iff_prefix.mpr
      (List.prefix_iff_eq_take.mpr (htake.trans rfl ▸ htake))

theorem findSubAux_append (pat ys : List Char) :
    ∀ (xs : List Char) (i k : Nat), findSubAux pat xs i = some k →
      findSubAux pat (xs ++ ys) i = some k := by
  intro xs
  induction xs with
  | nil =>
    intro i k h
    unfold findSubAux at h
    split at h
    · injection h with h1
      subst h1
      have hp : pat.isPrefixOf ([] : List Char) = true := by assumption
      have hpre : pat <+: ([] : List Char) := List.isPrefixOf_iff_prefix.mp hp
      have hnil : pat = [] := List.prefix_nil.mp hpre
      subst hnil
      unfold findSubAux
      simp
    · exact absurd h (by simp)
  | cons c rest ih =>
    intro i k h
    unfold findSubAux at h
    split at h
    · injection h with h1
      subst h1
      have hp : pat.isPrefixOf (c :: rest) = true := by assumption
      unfold findSubAux
      rw [List.cons_append]
      have hpre : pat <+: (c :: rest) := List.isPrefixOf_iff_prefix.mp hp
      have : pat.isPrefixOf ((c :: rest) ++ ys) = true :=
        List.isPrefixOf_iff_prefix.mpr (hpre.trans ((c :: rest).prefix_append ys))
      rw [List.cons_append] at this
      rw [this]
      simp
    · have hbound := findSubAux_some_bounds pat rest (i + 1) k h
      have hlen : pat.length ≤ (c :: rest).length := by
        simp only [List.length_cons]
        omega
      have hnp : pat.isPrefixOf (c :: rest) = false := by
        rename_i hcond
        exact Bool.eq_false_iff.mpr hcond
      unfold findSubAux
      rw [List.cons_append]
      have : pat.isPrefixOf ((c :: rest) ++ ys) = false := by
        rw [isPrefixOf_append_left pat (c :: rest) ys hlen]
        exact hnp
      rw [List.cons_append] at this
      rw [this]
      simp only [Bool.false_eq_true, if_false]
      exact ih (i + 1) k h

theorem findSub_append (xs ys pat : List Char) (k : Nat)
    (h : findSub xs pat = some k) : findSub (xs ++ ys) pat = some k :=
  findSubAux_append pat ys xs 0 k h

theorem msgWellFormed_length (m : List Char) (h : msgWellFormed m) :
    4 ≤ m.length := by
  obtain ⟨hdr, body, hm, _, _⟩ := h
  subst hm
  simp [crlfcrlf]
  omega

theorem processAux_nil (fuel : Nat) :
    processTcpBufferAux fuel [] = ([], []) := by
  cases fuel with
  | zero => rfl
  | succ f => rfl

theorem processAux_msg (fuel : Nat) (m rest : List Char)
    (hwf : msgWellFormed m) :
    processTcpBufferAux (fuel + 1) (m ++ rest) =
      ((processTcpBufferAux fuel rest).1.cons m,
       (processTcpBufferAux fuel rest).2) := by
  obtain ⟨hdr, body, hm, hfind, hcl⟩ := hwf
  have hmlen : m.length = hdr.length + 4 + body.length := by
    subst hm
    simp [crlfcrlf]
    omega
  have hfind2 : findSub (m ++ rest) crlfcrlf = some hdr.length :=
    findSub_append m rest crlfcrlf hdr.length hfind
  have hne : m ++ rest ≠ [] := by
    intro hcontra
    have h0 : (m ++ rest).length = 0 := by rw [hcontra]; rfl
    rw [List.length_append] at h0
    omega
  obtain ⟨b, bs, hcons⟩ : ∃ b bs, m ++ rest = b :: bs := by
    cases hmr : m ++ rest with
    | nil => exact absurd hmr hne
    | cons b bs => exact ⟨b, bs, rfl⟩
  have htake : (m ++ rest).take hdr.length = hdr := by
    subst hm
    rw [List.append_assoc, List.append_assoc]
    rw [List.take_append_of_le_length (by simp)]
    simp
  rw [hcons]
  show processTcpBufferAux (fuel + 1) (b :: bs) = _
  conv_lhs => unfold processTcpBufferAux
  rw [← hcons]
  simp only [hfind2, htake, hcl]
  have hminle : min (hdr.length + 4 + body.length) (m ++ rest).length
      = m.length := by
    rw [List.length_append]
    omega
  rw [hminle]
  rw [if_neg (by rw [List.length_append]; omega)]
  rw [List.take_left, List.drop_left]

theorem processAux_one (fuel : Nat) (m : List Char) (hwf : msgWellFormed m) :
    processTcpBufferAux (fuel + 1) m = ([m], []) := by
  have h := processAux_msg fuel m [] hwf
  rw [List.append_nil] at h
  rw [h, processAux_nil]

/-- C7: two well-formed framed SIP messages arriving concatenated in one
TCP data event are delivered as exactly those two messages in order, and
the accumulation buffer is left empty. -/
theorem C7_tcp_framing (m1 m2 : List Char)
    (h1 : msgWellFormed m1) (h2 : msgWellFormed m2) :
    handleTcpData [] (m1 ++ m2) = ([m1, m2], []) := by
  unfold handleTcpData
  rw [List.nil_append]
  show processTcpBufferAux ((m1 ++ m2).length + 1) (m1 ++ m2) = ([m1, m2], [])
  have hlen : (m1 ++ m2).length = m1.length + m2.length := by simp
  rw [hlen]
  have h4 : 4 ≤ m1.length := msgWellFormed_length m1 h1
  have hstep := processAux_msg (m1.length + m2.length) m1 m2 h1
  rw [hstep]
  obtain ⟨f, hf⟩ : ∃ f, m1.length + m2.length = f + 1 := ⟨m1.length + m2.length - 1, by omega⟩
  rw [hf, processAux_one f m2 h2]

/-- C7 witness: the two concrete messages are well formed and their
concatenation frames into exactly the two of them with nothing left. -/
theorem C7_tcp_framing_witness :
    msgWellFormed c7msg1 ∧ msgWellFormed c7msg2 ∧
    handleTcpData [] (c7msg1 ++ c7msg2) = ([c7msg1, c7msg2], []) := by
  have h1 : msgWellFormed c7msg1 :=
    ⟨("R x\r\nContent-Length: 2").data, ("ab").data, by decide, by decide, by decide⟩
  have h2 : msgWellFormed c7msg2 :=
    ⟨("OK z").data, [], by decide, by decide, by decide⟩
  exact ⟨h1, h2, C7_tcp_framing c7msg1 c7msg2 h1 h2⟩

end SIPPhone
